import Mathlib

/-!
Verification development for the rueckenwind request-routing and dispatch
engine (`rw/www.py`).  The definitions below are a shallow embedding of the
routing compiler, the dispatcher's path normalization, the error-escalation
protocol of `HandlerBase.on_error`, and the static-asset resolver
(`StaticURL.get_content` / `search` / `bfs` / `__call__`,
`StaticFileHandler.get`, `StaticObject.__new__`).

Python dicts are embedded as association lists (first binding wins on
lookup), Python exceptions as `Option`/`none` results, Python string
truthiness as an emptiness test.  The cryptographic md5 digest is abstracted
as a function parameter.  The `Rule` class lives in `rw/routing.py`, which is
not part of the sources at hand; the route record and its ordering are
modelled from the spec where noted.
-/

namespace RW

/-- Association-list lookup, first binding wins; models Python dict lookup
for dicts built by insertion-ordered appends. -/
def lookupA {α : Type} (k : String) : List (String × α) → Option α
  | [] => none
  | (k2, v) :: rest => if k2 = k then some v else lookupA k rest

/-! ## Path normalization

Models `request.path.rstrip('/')` with the empty result canonicalized to
`/` (lines 571-574 of `rw/www.py`) and the identical leaf normalization
`(prefix + value._rw_route).rstrip('/')` / bare route to `/` in
`_generate_routing` (lines 667-670). -/

/-- All trailing slash characters removed from a character list. -/
def rstripSlashL (l : List Char) : List Char :=
  (l.reverse.dropWhile (fun c => c = '/')).reverse

/-- Models Python `s.rstrip('/')`: drop every trailing slash. -/
def rstripSlash (s : String) : String := String.mk (rstripSlashL s.data)

/-- Strip trailing slashes; an empty outcome is canonicalized to the bare
root path, exactly as both call sites of the source do. -/
def normPath (p : String) : String :=
  let q := rstripSlash p
  if q = "" then "/" else q

/-- Detects the substring `..`, i.e. two adjacent dot characters; models
the check `'..' in path` of `StaticFileHandler.get` (line 106). -/
def hasDotDotL : List Char → Bool
  | '.' :: '.' :: _ => true
  | _ :: rest => hasDotDotL rest
  | [] => false

/-- String form of the `..` substring test. -/
def hasDotDot (s : String) : Bool := hasDotDotL s.data

/-! ## Static-asset resolver

A handler type carries its own packaged/template assets (one merged
own-namespace map, covering both `pkg_resources.resource_string` and the
`template_env` fallback of `get_content`) and the ordered list of declared
parent handler types (`_parents`). -/

/-- Handler type for the static resolver: numeric identity, own asset
namespace (asset name to content, an entry with empty content models an
empty file), ordered parent list. -/
inductive HT : Type where
  | mk (hname : Nat) (res : List (String × String)) (parents : List HT)
deriving Repr

/-- Identity of a static-resolver handler type. -/
def HT.hname : HT → Nat
  | .mk n _ _ => n

/-- Own asset namespace of a handler type. -/
def HT.res : HT → List (String × String)
  | .mk _ r _ => r

/-- Declared parent handler types, in declaration order. -/
def HT.parents : HT → List HT
  | .mk _ _ ps => ps

mutual
/-- Embedding of `StaticURL.get_content` (lines 159-181): try the own
namespace (resource, then template, merged into `res`); on failure ask each
declared parent recursively in declaration order, swallowing its failure;
if no parent succeeds, raise (`none` models the raised `IOError`). -/
def get_content : HT → String → Option String
  | .mk _ res ps, f =>
    match lookupA f res with
    | some raw => some raw
    | none => get_content_parents ps f

/-- The `for parent in main._parents: try ... except: pass` loop inside
`get_content`: first parent whose recursive resolution succeeds. -/
def get_content_parents : List HT → String → Option String
  | [], _ => none
  | p :: rest, f =>
    match get_content p f with
    | some d => some d
    | none => get_content_parents rest f
end

mutual
/-- Pre-order traversal of a handler type and its ancestor tree, parents in
declaration order; used to characterize `get_content` as a depth-first
search. -/
def preorder : HT → List HT
  | .mk n res ps => HT.mk n res ps :: preorderL ps

/-- Pre-order traversal of a list of handler types in order. -/
def preorderL : List HT → List HT
  | [] => []
  | p :: rest => preorder p ++ preorderL rest
end

/-- Embedding of `StaticURL.search` (lines 153-157): resolve via
`get_content`; truthy (nonempty) content is returned, falsy content yields
the parent list instead; a raising `get_content` propagates (`none`). -/
def search (h : HT) (f : String) : Option (String ⊕ List HT) :=
  match get_content h f with
  | none => none
  | some d => if d = "" then some (Sum.inr h.parents) else some (Sum.inl d)

/-- Embedding of the queue loop of `StaticURL.bfs` (lines 137-151): pop the
left end, run `search`; a string result breaks the loop, a list result is
appended to the queue.  On exhaustion the final loop variable is falsy
(`None` or an empty list), modelled as `some none`.  `fuel` bounds the
number of iterations; `none` is an escaped exception or exhausted fuel. -/
def bfs_loop (f : String) : Nat → List HT → Option (Option String)
  | _, [] => some none
  | 0, _ :: _ => none
  | fuel + 1, nxt :: rest =>
    match search nxt f with
    | none => none
    | some (Sum.inl d) => some (some d)
    | some (Sum.inr ps) => bfs_loop f fuel (rest ++ ps)

/-- Embedding of `StaticURL.bfs`: run the queue loop over the handler's
declared parents. -/
def bfs (fuel : Nat) (h : HT) (f : String) : Option (Option String) :=
  bfs_loop f fuel h.parents

/-- The data-acquisition phase of `StaticURL.__call__` (lines 120-135,
plain-name branch): `get_content`, falling back to `bfs` when the content is
falsy.  Outer `none` is a raised exception; `some none` is final falsy data;
`some (some d)` is truthy content `d`. -/
def resolveData (fuel : Nat) (h : HT) (f : String) : Option (Option String) :=
  match get_content h f with
  | none => none
  | some d => if d = "" then bfs fuel h f else some (some d)

/-- Embedding of `StaticObject.__new__` (lines 63-75): the asset URL is
`/static/<module>/<fname>` followed by `?v=` and the first five characters
of the digest when the digest is truthy, `?v=ERR` otherwise. -/
def static_object_url (module fname : String) (md5sum : Option String) : String :=
  let url := "/static/" ++ module ++ "/" ++ fname
  match md5sum with
  | some s => if s = "" then url ++ "?v=ERR" else url ++ "?v=" ++ s.take 5
  | none => url ++ "?v=ERR"

/-- Embedding of `StaticURL.__call__` (lines 120-135): resolve the data,
hash truthy data (`hashFn` abstracts `md5(data).hexdigest()`), build the
`StaticObject` URL.  `none` models the uncaught exception escaping the
call. -/
def static_call (hashFn : String → String) (fuel : Nat) (h : HT)
    (module f : String) : Option String :=
  (resolveData fuel h f).map (fun d => static_object_url module f (d.map hashFn))

/-- Result of the packaged static file handler: an HTTP error status or a
response body. -/
inductive PageRes : Type where
  | httpError (code : Nat)
  | body (data : String)
deriving Repr, DecidableEq

/-- Embedding of `StaticFileHandler.get` (lines 103-117): reject paths
containing `..` with HTTP 403 before any content is consulted; otherwise
resolve via `get_content` with `bfs` fallback, write truthy data, and
answer 404 on falsy data.  `none` models an exception escaping `get`. -/
def static_file_get (fuel : Nat) (h : HT) (path : String) : Option PageRes :=
  if hasDotDot path then some (PageRes.httpError 403)
  else
    match get_content h path with
    | none => none
    | some d =>
      match (if d = "" then bfs_loop path fuel h.parents else some (some d)) with
      | none => none
      | some none => some (PageRes.httpError 404)
      | some (some s) => some (PageRes.body s)

/-! ## Route compiler

Handler-type tree for `generate_routing` (lines 632-678): a handler node
has an identity, a flag for being a full `RequestHandler` page (as opposed
to a sub-handler), and named members.  A member is either a method
annotated with a verb and a local path (`@get('/path')` et al.) or a
`mount` of a child handler under a route fragment. -/

mutual
/-- Node of the handler tree walked by `_generate_routing`.  The member
list is given in the order `inspect.getmembers` reports members, i.e.
ascending by member name (the sorting happens inside the Python standard
library, not in this repository). -/
inductive RHandler : Type where
  | mk (hname : Nat) (isReq : Bool) (members : List RMember)

/-- Named member of a handler: an annotated method or a mount. -/
inductive RMember : Type where
  | routeM (mname : String) (rtype : String) (path : String)
  | mountM (mname : String) (mroute : String) (sub : RHandler)
end

/-- Name of a member, the key under which `inspect.getmembers` reports
it. -/
def RMember.mname : RMember → String
  | .routeM n _ _ => n
  | .mountM n _ _ => n

/-- The route record produced by the compiler: normalized pattern, owning
handler identity and target method name (the data passed to
`Rule(route, handler, key)`). -/
structure Route : Type where
  pattern : String
  owner : Nat
  mkey : String
deriving Repr, DecidableEq

/-- Modelled from the spec: `rw/routing.py` (the `Rule` class, whose
comparison drives `ret.sort(reverse=True)`) is not among the sources; the
spec fixes the order as descending lexicographic on the full pattern
string, so `patGe a b` holds when `a` sorts no later than `b`. -/
def patGe (a b : Route) : Prop := b.pattern ≤ a.pattern

instance : DecidableRel patGe :=
  fun a b =>
    decidable_of_iff (b.pattern.toList ≤ a.pattern.toList)
      String.le_iff_toList_le.symm

instance : IsTotal Route patGe := ⟨fun a b => le_total b.pattern a.pattern⟩

instance : IsTrans Route patGe := ⟨fun _ _ _ h1 h2 => le_trans h2 h1⟩

mutual
/-- Embedding of `_generate_routing` (lines 641-678) for one verb `rt`:
visit the members in `getmembers` order (the member list), mounts recurse
with an extended route fragment, annotated methods of the right verb yield
one normalized route each, and the collected list is sorted descending
(`ret.sort(reverse=True)`, stable insertion sort like Python's stable
sort). -/
def generate_routing_rec (rt : String) : RHandler → String → List Route
  | .mk hname _ ms, pfx =>
    List.insertionSort patGe (generate_routing_members rt hname ms pfx)

/-- The member loop of `_generate_routing`: mounts extend the result with
the recursive routing of the mounted handler, annotated methods matching
the verb append one route with pattern `pfx + local path` normalized by
`rstrip('/')` and the bare pattern canonicalized to `/`. -/
def generate_routing_members (rt : String) (hname : Nat) :
    List RMember → String → List Route
  | [], _ => []
  | RMember.routeM key t p :: rest, pfx =>
    (if t = rt then [Route.mk (normPath (pfx ++ p)) hname key] else [])
      ++ generate_routing_members rt hname rest pfx
  | RMember.mountM _ r sub :: rest, pfx =>
    generate_routing_rec rt sub (pfx ++ r)
      ++ generate_routing_members rt hname rest pfx
end

/-- Per-verb route table entry of `generate_routing` (lines 632-638). -/
def generate_routing (rt : String) (root : RHandler) : List Route :=
  generate_routing_rec rt root ""

/-- The full table built by `generate_routing`, one entry per verb. -/
def generate_routing_table (root : RHandler) : List (String × List Route) :=
  [("get", generate_routing "get" root),
   ("post", generate_routing "post" root),
   ("put", generate_routing "put" root),
   ("delete", generate_routing "delete" root)]

mutual
/-- Follows the spec wording for claim C5: every annotated method matching
the verb that is reachable through mounts with fragments `q1..qk`
contributes exactly one pattern, the concatenation of the fragments and the
local path with trailing slashes stripped and the empty pattern
canonicalized to `/`. -/
def route_specs (rt : String) : RHandler → String → List String
  | .mk _ _ ms, pfx => route_specs_members rt ms pfx

/-- Member part of the spec-side pattern collection, in declaration
order. -/
def route_specs_members (rt : String) : List RMember → String → List String
  | [], _ => []
  | RMember.routeM _ t p :: rest, pfx =>
    (if t = rt then [normPath (pfx ++ p)] else [])
      ++ route_specs_members rt rest pfx
  | RMember.mountM _ r sub :: rest, pfx =>
    route_specs rt sub (pfx ++ r) ++ route_specs_members rt rest pfx
end

/-- One member's contribution to the spec-side pattern collection. -/
def mem_spec (rt pfx : String) : RMember → List String
  | RMember.routeM _ t p => if t = rt then [normPath (pfx ++ p)] else []
  | RMember.mountM _ r sub => route_specs rt sub (pfx ++ r)

/-- Modelled from the spec: `rw/routing.py` is not among the sources and
`generate_routing` itself never compares patterns, yet the spec demands
that startup aborts fatally when two routes of one verb share a normalized
pattern.  `none` models the aborted startup. -/
def compile_checked (rt : String) (root : RHandler) : Option (List Route) :=
  let routes := generate_routing rt root
  if (routes.map Route.pattern).Nodup then some routes else none

/-! ## Dispatcher -/

/-- Embedding of the normal-routing branch of `Application.__call__`
(lines 571-587): the request path is normalized once
(`request.path.rstrip('/')`, empty to `/`) and the verb's route list is
scanned in table order for the first rule whose `match` (a `Rule` method of
the absent `rw/routing.py`, abstracted as the parameter `m`) answers. -/
def dispatchSelect {β : Type} (routes : List Route)
    (m : Route → String → Option β) (p : String) : Option β :=
  List.findSome? (fun r => m r (normPath p)) routes

/-! ## Error escalation

`HandlerBase.on_error` (lines 450-458).  A handler instance doubles as its
request-scoped scratch dict; scratch values are `None`, a handler class, or
opaque data. -/

/-- Scratch value: Python `None`, a handler class (identified by number),
or opaque truthy data. -/
inductive Val : Type where
  | vnone
  | vcls (c : Nat)
  | vdata (n : Nat)
deriving Repr, DecidableEq

/-- Scratch space of a handler instance: insertion-ordered dict. -/
abbrev Scratch := List (String × Val)

/-- The copy loop of `on_error`: every child entry whose key is not already
present on the freshly built parent instance is added to it
(`for key, value in self.items(): if key not in parent: parent[key] =
value`). -/
def transferAbsent (child par : Scratch) : Scratch :=
  child.foldl
    (fun acc kv => if (lookupA kv.1 acc).isSome then acc else acc ++ [kv]) par

/-- Embedding of `HandlerBase.on_error`: `env c` is the scratch space a
freshly constructed instance of class `c` starts with (its `__init__`
entries and the `template_subglobals` installed by `_generate_routing`,
including its own `parent_handler`).  A scratch whose `parent_handler` is a
class different from the handler's own class escalates: the parent is
instantiated, absent scratch entries are transferred, and the parent
handles the same status code.  A `parent_handler` of `None` or the
handler's own class terminates with the final render
(`super().send_error`).  A missing key raises `KeyError` and a non-class
truthy value raises on call, both modelled by `none`; `fuel` bounds the
climb. -/
def on_error (env : Nat → Scratch) :
    Nat → Nat → Nat → Scratch → Option (Nat × Nat × Scratch)
  | 0, _, _, _ => none
  | fuel + 1, status, cls, scratch =>
    match lookupA "parent_handler" scratch with
    | none => none
    | some Val.vnone => some (status, cls, scratch)
    | some (Val.vdata _) => none
    | some (Val.vcls q) =>
      if q = cls then some (status, cls, scratch)
      else on_error env fuel status q (transferAbsent scratch (env q))

/-! ## Concrete instances used in examples, witnesses and counterexamples -/

/-- Handler `Y`, mounted at `/cart` inside `X`, exposing `GET /view`. -/
def htY : RHandler := .mk 2 true [RMember.routeM "view" "get" "/view"]

/-- Handler `X`, mounted at `/shop`, exposing `GET /<item>` and mounting
`Y` at `/cart`. -/
def htX : RHandler :=
  .mk 1 true [RMember.mountM "cart" "/cart" htY, RMember.routeM "item" "get" "/<item>"]

/-- Root handler mounting `X` at `/shop`, so `Y` sits at `/shop/cart`. -/
def htRoot : RHandler := .mk 0 true [RMember.mountM "shop" "/shop" htX]

/-- Static handler type `G`, grandparent under `B`, holding `logo.png`. -/
def htG : HT := .mk 5 [("logo.png", "GG")] []

/-- Static handler type `E`, parent of nothing but child of `B`, without
the asset. -/
def htE : HT := .mk 4 [] [htG]

/-- Static handler type `B`, first parent of `A`, without the asset. -/
def htB : HT := .mk 1 [] [htE]

/-- Static handler type `D`, parent of `C`, holding `logo.png`. -/
def htD : HT := .mk 3 [("logo.png", "DD")] []

/-- Static handler type `C`, second parent of `A`, without the asset. -/
def htC : HT := .mk 2 [] [htD]

/-- Static handler type `A` with declared parents `[B, C]` and no own
assets. -/
def htA : HT := .mk 0 [] [htB, htC]

/-- Handler type without any assets or parents: every resolution from it
raises. -/
def htMiss : HT := .mk 7 [] []

/-- Handler type owning an empty file `e.txt` and nothing else. -/
def htEmpty : HT := .mk 8 [("e.txt", "")] []

/-- Concrete stand-in for `md5(data).hexdigest()` in closed statements;
the hash function is abstracted everywhere it matters. -/
def hashC : String → String := fun _ => "d41d8cd98f00b204e9800998ecf8427e"

/-- Fresh-instance scratch spaces for the error-escalation witness: class
`1` is the root page handler (its `parent_handler` is `None`), every other
class starts empty. -/
def env0 : Nat → Scratch := fun c =>
  if c = 1 then [("parent_handler", Val.vnone), ("handler", Val.vdata 1)] else []

/-- Scratch space of a failing child handler of class `2`: its logical
parent is class `1` and it wrote the key `x` before raising. -/
def s0 : Scratch := [("parent_handler", Val.vcls 1), ("x", Val.vdata 42)]

/-- One-route table for the dispatch witness. -/
def routesW : List Route := [Route.mk "/a/b" 0 "idx"]

/-- Simple literal matcher standing in for `Rule.match` in the dispatch
witness. -/
def mW : Route → String → Option Nat :=
  fun r q => if r.pattern = q then some r.owner else none

/-! ## Helper lemmas -/

/-- Dropping leading slashes ignores a run of slashes prepended to the
list. -/
theorem dropWhile_slash_replicate (k : Nat) (l : List Char) :
    List.dropWhile (fun c => c = '/') (List.replicate k '/' ++ l)
      = List.dropWhile (fun c => c = '/') l := by
  induction k with
  | zero => simp
  | succ n ih => simp [List.replicate_succ, List.dropWhile, ih]

/-- Appending trailing slashes does not change `rstrip('/')`. -/
theorem rstripSlash_append_slashes (p : String) (k : Nat) :
    rstripSlash (p ++ String.mk (List.replicate k '/')) = rstripSlash p := by
  unfold rstripSlash rstripSlashL
  rw [String.data_append]
  show String.mk (((p.data ++ (List.replicate k '/')).reverse.dropWhile
    (fun c => c = '/')).reverse) = _
  rw [List.reverse_append, List.reverse_replicate, dropWhile_slash_replicate]

/-- Appending trailing slashes does not change the normalized path. -/
theorem normPath_append_slashes (p : String) (k : Nat) :
    normPath (p ++ String.mk (List.replicate k '/')) = normPath p := by
  unfold normPath
  rw [rstripSlash_append_slashes]

/-! ## Claims -/

/-- Claim C7: for every request path `p` and verb, dispatching `p` followed
by one or more trailing slash characters selects the same route match as
dispatching `p` without them, and dispatching the empty path is equivalent
to dispatching `/`; the trailing slashes collapse before the route list is
scanned, whatever the rule matcher `m` does. -/
theorem claim_C7_trailing_slash_equiv {β : Type} (routes : List Route)
    (m : Route → String → Option β) (p : String) (k : Nat) (_hk : 0 < k) :
    dispatchSelect routes m (p ++ String.mk (List.replicate k '/'))
        = dispatchSelect routes m p
      ∧ dispatchSelect routes m "" = dispatchSelect routes m "/" := by
  constructor
  · unfold dispatchSelect
    rw [normPath_append_slashes]
  · rfl

/-- Witness for claim C7 at a concrete route table, matcher, path and two
trailing slashes. -/
theorem claim_C7_trailing_slash_equiv_witness :
    0 < 2
      ∧ (dispatchSelect routesW mW ("/a/b" ++ String.mk (List.replicate 2 '/'))
            = dispatchSelect routesW mW "/a/b"
          ∧ dispatchSelect routesW mW "" = dispatchSelect routesW mW "/") :=
  ⟨by decide, claim_C7_trailing_slash_equiv routesW mW "/a/b" 2 (by decide)⟩

/-- Lookup distributes over appended association lists, preferring the
left part. -/
theorem lookupA_append {α : Type} (k : String) (l1 l2 : List (String × α)) :
    lookupA k (l1 ++ l2) = (lookupA k l1).or (lookupA k l2) := by
  induction l1 with
  | nil => simp [lookupA]
  | cons kv rest ih =>
    obtain ⟨k2, v⟩ := kv
    by_cases h : k2 = k <;> simp [lookupA, h, ih]

/-- A key present on the freshly built parent instance survives the
transfer loop of `on_error`. -/
theorem transferAbsent_mono :
    ∀ (child par : Scratch) (k : String),
      (lookupA k par).isSome = true
        → (lookupA k (transferAbsent child par)).isSome = true
  | [], _, _, h => h
  | kv :: rest, par, k, h => by
    unfold transferAbsent
    apply transferAbsent_mono rest
    by_cases h2 : (lookupA kv.1 par).isSome = true
    · simpa [h2] using h
    · simp only [h2, if_false, Bool.false_eq_true]
      rw [lookupA_append]
      rcases hpar : lookupA k par with _ | v
      · rw [hpar] at h; simp at h
      · simp [Option.or]

/-- Every key of the raising child's scratch space is present after the
transfer loop of `on_error`. -/
theorem transferAbsent_covers :
    ∀ (child par : Scratch) (k : String),
      (lookupA k child).isSome = true
        → (lookupA k (transferAbsent child par)).isSome = true
  | (k2, v) :: rest, par, k, h => by
    unfold transferAbsent
    by_cases hk : k2 = k
    · subst hk
      apply transferAbsent_mono rest
      by_cases h2 : (lookupA k2 par).isSome = true
      · simp [h2]
      · simp only [h2, if_false, Bool.false_eq_true]
        rw [lookupA_append]
        rcases hpar : lookupA k2 par with _ | w
        · simp [Option.or, lookupA]
        · rw [hpar] at h2; simp at h2
    · apply transferAbsent_covers rest
      simpa [lookupA, hk] using h

/-- Claim C1: whenever the error-escalation climb of `on_error` reaches a
final render (result `some out`), the handler rendering it is the first one
along the logical-parent chain whose `parent_handler` entry is `None` or
its own class, the escalation preserves the status code, and every scratch
key of the raising handler is visible to the terminating handler's error
path (values already present on a parent are not overwritten, but the key
is never lost). -/
theorem claim_C1_error_escalation (env : Nat → Scratch) (fuel status cls : Nat)
    (scratch : Scratch) (out : Nat × Nat × Scratch)
    (hrun : on_error env fuel status cls scratch = some out) :
    (∀ k, (lookupA k scratch).isSome = true
        → (lookupA k out.2.2).isSome = true)
      ∧ out.1 = status
      ∧ (lookupA "parent_handler" out.2.2 = some Val.vnone
          ∨ lookupA "parent_handler" out.2.2 = some (Val.vcls out.2.1)) := by
  induction fuel generalizing cls scratch with
  | zero => simp [on_error] at hrun
  | succ n ih =>
    rw [on_error] at hrun
    split at hrun
    · simp at hrun
    · rename_i hpar
      simp only [Option.some.injEq] at hrun
      subst hrun
      exact ⟨fun k hk => hk, rfl, Or.inl hpar⟩
    · simp at hrun
    · rename_i q hpar
      by_cases hq : q = cls
      · rw [if_pos hq] at hrun
        simp only [Option.some.injEq] at hrun
        subst hrun
        subst hq
        exact ⟨fun k hk => hk, rfl, Or.inr hpar⟩
      · rw [if_neg hq] at hrun
        obtain ⟨hkeys, hstat, hterm⟩ := ih q (transferAbsent scratch (env q)) hrun
        exact ⟨fun k hk => hkeys k (transferAbsent_covers scratch (env q) k hk),
          hstat, hterm⟩

/-- Witness for claim C1: a child of class `2` with scratch key `x` and
logical parent class `1` escalates once; the final render happens on class
`1` with the same status `500` and both keys visible. -/
theorem claim_C1_error_escalation_witness :
    on_error env0 3 500 2 s0
        = some (500, 1, [("parent_handler", Val.vnone), ("handler", Val.vdata 1),
            ("x", Val.vdata 42)])
      ∧ ((∀ k, (lookupA k s0).isSome = true
            → (lookupA k (500, 1,
                [("parent_handler", Val.vnone), ("handler", Val.vdata 1),
                  ("x", Val.vdata 42)]).2.2).isSome = true)
          ∧ (500, 1, ([("parent_handler", Val.vnone), ("handler", Val.vdata 1),
              ("x", Val.vdata 42)] : Scratch)).1 = 500
          ∧ (lookupA "parent_handler" (500, 1,
                [("parent_handler", Val.vnone), ("handler", Val.vdata 1),
                  ("x", Val.vdata 42)]).2.2 = some Val.vnone
              ∨ lookupA "parent_handler" (500, 1,
                  [("parent_handler", Val.vnone), ("handler", Val.vdata 1),
                    ("x", Val.vdata 42)]).2.2
                = some (Val.vcls (500, 1,
                    ([("parent_handler", Val.vnone), ("handler", Val.vdata 1),
                      ("x", Val.vdata 42)] : Scratch)).2.1))) :=
  ⟨by decide, claim_C1_error_escalation env0 3 500 2 s0 _ (by decide)⟩

mutual
/-- Resolution through `get_content` is a depth-first pre-order search: it
returns the result of the first handler type in pre-order (own node first,
then each parent subtree exhaustively, in declaration order) whose own
namespace holds the asset. -/
theorem get_content_preorder : ∀ (h : HT) (f : String),
    get_content h f = (preorder h).findSome? (fun n => lookupA f n.res)
  | .mk n res ps, f => by
    rw [get_content, preorder, List.findSome?_cons, get_content_parents_preorder ps f]
    rcases hl : lookupA f res with _ | d <;> simp [HT.res, hl]

/-- The parent loop of `get_content` equals the pre-order search over the
concatenated parent subtrees. -/
theorem get_content_parents_preorder : ∀ (ps : List HT) (f : String),
    get_content_parents ps f
      = (preorderL ps).findSome? (fun n => lookupA f n.res)
  | [], f => by simp [get_content_parents, preorderL]
  | p :: rest, f => by
    rw [get_content_parents, preorderL, List.findSome?_append,
      get_content_preorder p f, get_content_parents_preorder rest f]
    rcases hfind : (preorder p).findSome? (fun n => lookupA f n.res) with _ | d
      <;> simp [hfind, Option.or]
end

/-- Counterexample to claim C2: handler type `A` has declared parents
`[B, C]`; neither `A`, `B` nor `C` owns `logo.png`, while `C`'s parent `D`
does.  Yet resolving `logo.png` from `A` does not return `D`'s content: it
returns the content of `G`, a grandparent reached through the first parent
`B`, because each probe recursively exhausts a parent's whole ancestor
subtree before the next parent is consulted.  The queue-based `bfs` behaves
the same way, since its per-node `search` delegates to the recursive
`get_content`. -/
theorem claim_C2_bfs_counterexample :
    (htA.parents).map HT.hname = [htB.hname, htC.hname]
      ∧ (htC.parents).map HT.hname = [htD.hname]
      ∧ lookupA "logo.png" htA.res = none
      ∧ lookupA "logo.png" htB.res = none
      ∧ lookupA "logo.png" htC.res = none
      ∧ lookupA "logo.png" htD.res = some "DD"
      ∧ resolveData 9 htA "logo.png" = some (some "GG")
      ∧ resolveData 9 htA "logo.png" ≠ some (some "DD")
      ∧ bfs 9 htA "logo.png" = some (some "GG")
      ∧ ("GG" : String) ≠ "DD" := by decide

/-- Claim C2 as amended: static-asset resolution from a handler type is a
depth-first pre-order search over the declared parent lists — the
handler's own namespace first, then each declared parent's entire ancestor
subtree in declaration order — rather than a breadth-first one; in the
scenario of the counterexample the deep-left provider `G` shadows `D`, and
the pre-order visits `A, B, E, G, C, D`. -/
theorem claim_C2_depth_first_resolution :
    (∀ (h : HT) (f : String),
      get_content h f = (preorder h).findSome? (fun n => lookupA f n.res))
      ∧ resolveData 9 htA "logo.png" = some (some "GG")
      ∧ (preorder htA).map HT.hname = [0, 1, 4, 5, 2, 3] :=
  ⟨get_content_preorder, by decide, by decide⟩

mutual
/-- The patterns produced by the per-verb compiler are a permutation of the
spec-side pattern collection: sorting permutes, and member lists align
one-to-one. -/
theorem gen_rec_perm (rt : String) : ∀ (h : RHandler) (pfx : String),
    ((generate_routing_rec rt h pfx).map Route.pattern).Perm
      (route_specs rt h pfx)
  | .mk n b ms, pfx => by
    rw [generate_routing_rec, route_specs]
    exact ((List.perm_insertionSort patGe _).map Route.pattern).trans
      (gen_members_perm rt n ms pfx)

/-- Member-list version of `gen_rec_perm`. -/
theorem gen_members_perm (rt : String) (hname : Nat) :
    ∀ (ms : List RMember) (pfx : String),
    ((generate_routing_members rt hname ms pfx).map Route.pattern).Perm
      (route_specs_members rt ms pfx)
  | [], pfx => by
    rw [generate_routing_members, route_specs_members]
    rfl
  | RMember.routeM key t p :: rest, pfx => by
    rw [generate_routing_members, route_specs_members, List.map_append]
    refine List.Perm.append ?_ (gen_members_perm rt hname rest pfx)
    by_cases ht : t = rt <;> simp [ht]
  | RMember.mountM mn r sub :: rest, pfx => by
    rw [generate_routing_members, route_specs_members, List.map_append]
    exact List.Perm.append (gen_rec_perm rt sub (pfx ++ r))
      (gen_members_perm rt hname rest pfx)
end

/-- Claim C3: compilation of a root handler for a verb succeeds exactly
when no two annotated methods reachable from the root yield the same
normalized pattern for that verb; any duplicate aborts startup
(spec-modelled duplicate check, `rw/routing.py` being absent from the
sources). -/
theorem claim_C3_duplicate_patterns_fatal (rt : String) (root : RHandler) :
    (compile_checked rt root).isSome = true ↔ (route_specs rt root "").Nodup := by
  have hp : ((generate_routing rt root).map Route.pattern).Perm
      (route_specs rt root "") := gen_rec_perm rt root ""
  by_cases h : ((generate_routing rt root).map Route.pattern).Nodup
  · simp [compile_checked, h, hp.nodup_iff.mp h]
  · simp [compile_checked, h]
    exact fun hc => h (hp.nodup_iff.mpr hc)

/-- Claim C4: after compilation every verb's route list is sorted in
descending lexicographic order of the full pattern string — each route's
pattern is at least its successor's — and in the concrete shop tree the
pattern `/shop/cart/view` is placed before `/shop/<item>` in the GET
list. -/
theorem claim_C4_descending_pattern_sort (rt : String) (root : RHandler) :
    List.Chain' (fun a b => b.pattern ≤ a.pattern) (generate_routing rt root)
      ∧ (generate_routing "get" htRoot).map Route.pattern
          = ["/shop/cart/view", "/shop/<item>"] := by
  refine ⟨?_, by decide⟩
  cases root with
  | mk n b ms =>
    exact List.Pairwise.chain'
      (List.sorted_insertionSort patGe (generate_routing_members rt n ms ""))

/-- Claim C5: compilation produces exactly one route per annotated method
reachable from the root, with pattern the concatenation of the mount
fragments and the local path, trailing slashes stripped and the empty
pattern canonicalized to `/` (stated as a permutation with the spec-side
collection); mounting `X` at `/shop` and `Y` at `/shop/cart` yields the
expected prefixed patterns. -/
theorem claim_C5_prefix_concatenation (rt : String) (root : RHandler) :
    ((generate_routing rt root).map Route.pattern).Perm (route_specs rt root "")
      ∧ generate_routing "get" htRoot
          = [Route.mk "/shop/cart/view" 2 "view",
             Route.mk "/shop/<item>" 1 "item"] :=
  ⟨gen_rec_perm rt root "", by decide⟩

/-- Claim C8 as amended: when the resolution of an asset ends with falsy
(empty) data, the `StaticURL` call still returns a `StaticObject` whose URL
carries the sentinel `?v=ERR` — but an asset that is missing everywhere
makes `get_content` raise `IOError`, which `__call__` does not catch (see
the counterexample). -/
theorem claim_C8_empty_content_err_token (hashFn : String → String)
    (fuel : Nat) (h : HT) (m f : String)
    (hres : resolveData fuel h f = some none) :
    static_call hashFn fuel h m f
      = some ("/static/" ++ m ++ "/" ++ f ++ "?v=ERR") := by
  unfold static_call
  rw [hres]
  rfl

/-- Counterexample to claim C8: for an asset that no handler provides,
`get_content` raises and the `StaticURL` call propagates the exception
instead of returning a `StaticObject` with the `?v=ERR` token. -/
theorem claim_C8_missing_asset_counterexample :
    get_content htMiss "a.txt" = none
      ∧ static_call hashC 5 htMiss "m" "a.txt" = none := by decide

/-- Witness for the amended claim C8 on a handler owning an empty file. -/
theorem claim_C8_empty_content_err_token_witness :
    resolveData 3 htEmpty "e.txt" = some none
      ∧ static_call hashC 3 htEmpty "m" "e.txt"
          = some ("/static/" ++ "m" ++ "/" ++ "e.txt" ++ "?v=ERR") :=
  ⟨by decide,
    claim_C8_empty_content_err_token hashC 3 htEmpty "m" "e.txt" (by decide)⟩

/-- Claim C9: the generated asset URL is exactly
`/static/<module>/<fname>?v=` followed by the first five characters of the
content hash when one is available (for hash `abcdef1234...` the token is
`abcde`), and ends in `?v=ERR` when no hash is available. -/
theorem claim_C9_static_url_format (m f hsh : String) (hne : hsh ≠ "") :
    static_object_url m f (some hsh)
        = "/static/" ++ m ++ "/" ++ f ++ "?v=" ++ hsh.take 5
      ∧ static_object_url m f none = "/static/" ++ m ++ "/" ++ f ++ "?v=ERR"
      ∧ static_object_url "mod" "app.css" (some "abcdef1234")
          = "/static/mod/app.css?v=abcde" := by
  refine ⟨?_, rfl, by decide⟩
  simp [static_object_url, hne]

/-- Witness for claim C9 at a concrete module, file and hash. -/
theorem claim_C9_static_url_format_witness :
    ("0123456789" : String) ≠ ""
      ∧ (static_object_url "mod2" "a.js" (some "0123456789")
            = "/static/" ++ "mod2" ++ "/" ++ "a.js" ++ "?v="
                ++ ("0123456789" : String).take 5
          ∧ static_object_url "mod2" "a.js" none
              = "/static/" ++ "mod2" ++ "/" ++ "a.js" ++ "?v=ERR"
          ∧ static_object_url "mod" "app.css" (some "abcdef1234")
              = "/static/mod/app.css?v=abcde") :=
  ⟨by decide, claim_C9_static_url_format "mod2" "a.js" "0123456789" (by decide)⟩

/-- Claim C10: a static-file GET whose path contains `..` anywhere is
answered with HTTP 403 before any asset content is consulted — the result
does not depend on the handler's assets at all. -/
theorem claim_C10_dotdot_rejected (fuel : Nat) (h : HT) (p : String)
    (hp : hasDotDot p = true) :
    static_file_get fuel h p = some (PageRes.httpError 403) := by
  unfold static_file_get
  simp [hp]

/-- Witness for claim C10 on a concrete traversal path. -/
theorem claim_C10_dotdot_rejected_witness :
    hasDotDot "/../x" = true
      ∧ static_file_get 2 htMiss "/../x" = some (PageRes.httpError 403) :=
  ⟨by decide, claim_C10_dotdot_rejected 2 htMiss "/../x" (by decide)⟩

end RW
